import Mathlib

/-!
Verification of the unifill alias merge-and-normalize pipeline.

This file gives a shallow embedding of the core of the repository:
the four source parsers, the alias merge engine, the block index, the
dataset/block filter and the master-snapshot save/load, as implemented in
`glyph-catcher/src/glyph_catcher/processor.py` (functions prefixed `gc`)
and `unifill-datafetch/src/unifill_datafetch/processor.py` (prefixed `ud`).

Modelling conventions:
* A text file is `Option (List String)`: `none` is a missing/unreadable
  file (the Python `FileNotFoundError` path), `some lines` is its list of
  lines (without trailing newlines, as produced by iterating the handle
  and as consumed through `line.strip()`).
* Python dicts (and defaultdicts) are insertion-ordered association
  lists; `dictInsert` models `d[k] = v` and `extendAt` models
  `d[k].extend(vs)` on a `defaultdict(list)`.
* Python `str.strip`/`lstrip` are modelled over the ASCII whitespace
  characters that occur in the data formats at hand; `str.lower`/`upper`
  via ASCII case mapping (`Char.toLower`/`toUpper`).
* `int(s, 16)` is modelled on plain strings of hexadecimal digits
  (`hexToNat?`); the exotic forms Python also accepts (signs, `0x`
  prefixes, underscores, surrounding whitespace) are outside the
  modelled well-formed domain.
* `chr(n)` succeeds exactly for `n ≤ 0x10FFFF` (Python's `chr` bound);
  the produced one-character string is represented by its code point
  (a `Nat`), since Lean strings cannot hold lone surrogates.
-/

/-- Python whitespace for `str.strip()` (the ASCII part). -/
def isPySpace (c : Char) : Bool :=
  c = ' ' || c = '\t' || c = '\n' || c = '\r' || c = '\x0b' || c = '\x0c'

/-- `l` with leading Python whitespace removed. -/
def pyLStripList (l : List Char) : List Char := l.dropWhile isPySpace

/-- `l` with leading and trailing Python whitespace removed (Python `str.strip`). -/
def pyStripList (l : List Char) : List Char :=
  ((l.dropWhile isPySpace).reverse.dropWhile isPySpace).reverse

/-- Python `str.lstrip()`. -/
def pyLStrip (s : String) : String := ⟨pyLStripList s.data⟩

/-- Python `str.strip()`. -/
def pyStrip (s : String) : String := ⟨pyStripList s.data⟩

/-- Python `str.lower()` (ASCII case mapping). -/
def pyLower (s : String) : String := ⟨s.data.map Char.toLower⟩

/-- Python `str.upper()` (ASCII case mapping). -/
def pyUpper (s : String) : String := ⟨s.data.map Char.toUpper⟩

/-- Python `s.startswith(p)`. -/
def pyStartsWith (s p : String) : Bool := p.data.isPrefixOf s.data

/-- Python `s.endswith(p)`. -/
def pyEndsWith (s p : String) : Bool := p.data.isSuffixOf s.data

/-- Python `c in s` for a single character. -/
def pyContains (s : String) (c : Char) : Bool := s.data.contains c

/-- Python `s[1:]`. -/
def pyDropOne (s : String) : String := ⟨s.data.drop 1⟩

/-- Python `s.split(sep)` for a one-character separator (keeps empty parts). -/
def pySplitList (sep : Char) : List Char → List (List Char)
  | [] => [[]]
  | c :: rest =>
    let r := pySplitList sep rest
    if c = sep then [] :: r
    else
      match r with
      | h :: t => (c :: h) :: t
      | [] => [[c]]

/-- Python `s.split(sep)` on strings. -/
def pySplitOn (s : String) (sep : Char) : List String :=
  (pySplitList sep s.data).map (⟨·⟩)

/-- Python `s.split(sep, 1)`: the part before the first separator, and
`some` rest if the separator occurs. -/
def pySplitOnceList (sep : Char) : List Char → List Char × Option (List Char)
  | [] => ([], none)
  | c :: rest =>
    if c = sep then ([], some rest)
    else
      let r := pySplitOnceList sep rest
      (c :: r.1, r.2)

/-- Python `s.split(sep, 1)` on strings. -/
def pySplitOnce (s : String) (sep : Char) : String × Option String :=
  let r := pySplitOnceList sep s.data
  (⟨r.1⟩, r.2.map (⟨·⟩))

/-- One hexadecimal digit. -/
def hexDigit? (c : Char) : Option Nat :=
  if '0' ≤ c ∧ c ≤ '9' then some (c.toNat - '0'.toNat)
  else if 'a' ≤ c ∧ c ≤ 'f' then some (c.toNat - 'a'.toNat + 10)
  else if 'A' ≤ c ∧ c ≤ 'F' then some (c.toNat - 'A'.toNat + 10)
  else none

/-- `int(s, 16)` on a plain non-empty string of hex digits. -/
def hexToNat? (s : String) : Option Nat :=
  match s.data with
  | [] => none
  | l => l.foldl (fun acc c => acc.bind fun n => (hexDigit? c).map (16 * n + ·)) (some 0)

/-- Upper-case hexadecimal digit of a value below 16. -/
def toHexDigit (n : Nat) : Char :=
  if n < 10 then Char.ofNat ('0'.toNat + n) else Char.ofNat ('A'.toNat + n - 10)

/-- Fuel-driven core of `format(n, 'X')`. -/
def natToHexAux : Nat → Nat → List Char
  | 0, _ => []
  | _ + 1, 0 => []
  | fuel + 1, n + 1 => natToHexAux fuel ((n + 1) / 16) ++ [toHexDigit ((n + 1) % 16)]

/-- Python `format(n, 'X')`: upper-case hex, no padding, no prefix. -/
def natToHexUpper (n : Nat) : String :=
  if n = 0 then "0" else ⟨natToHexAux n n⟩

/-- `d[k] = v` on an insertion-ordered dict. -/
def dictInsert {α : Type} (m : List (String × α)) (k : String) (v : α) :
    List (String × α) :=
  match m with
  | [] => [(k, v)]
  | (k', v') :: rest =>
    if k' = k then (k, v) :: rest else (k', v') :: dictInsert rest k v

/-- `d[k].extend(vs)` on a `defaultdict(list)`. -/
def extendAt (m : List (String × List String)) (k : String) (vs : List String) :
    List (String × List String) :=
  match m with
  | [] => [(k, vs)]
  | (k', vs') :: rest =>
    if k' = k then (k', vs' ++ vs) :: rest else (k', vs') :: extendAt rest k vs

/-- First-match lookup (`d[k]` / `d.get(k)`). -/
def lookup? {α : Type} (m : List (String × α)) (k : String) : Option α :=
  match m with
  | [] => none
  | (k', v) :: rest => if k' = k then some v else lookup? rest k

/-!
## Code-point/Block index

`UNICODE_BLOCKS` transcribes the static range table of
`glyph_catcher/processor.py` in its literal (dict-insertion) order; a
Python `range(a, b)` is the half-open interval `[a, b)`, stored here as
`(a, b, name)`.
-/

def UNICODE_BLOCKS : List (Nat × Nat × String) :=
  [(0x0000, 0x0080, "Basic Latin"),
   (0x0080, 0x0100, "Latin-1 Supplement"),
   (0x0100, 0x0180, "Latin Extended-A"),
   (0x0180, 0x0250, "Latin Extended-B"),
   (0x0250, 0x02B0, "IPA Extensions"),
   (0x02B0, 0x0300, "Spacing Modifier Letters"),
   (0x0300, 0x0370, "Combining Diacritical Marks"),
   (0x0370, 0x0400, "Greek and Coptic"),
   (0x0400, 0x0500, "Cyrillic"),
   (0x20A0, 0x20D0, "Currency Symbols"),
   (0x20D0, 0x2100, "Combining Diacriticals for Symbols"),
   (0x2100, 0x2150, "Letterlike Symbols"),
   (0x2150, 0x2190, "Number Forms"),
   (0x2190, 0x2200, "Arrows"),
   (0x2200, 0x2300, "Mathematical Operators"),
   (0x2300, 0x2400, "Miscellaneous Technical"),
   (0x2400, 0x2440, "Control Pictures"),
   (0x2460, 0x2500, "Enclosed Alphanumerics"),
   (0x2500, 0x2580, "Box Drawing"),
   (0x2580, 0x25A0, "Block Elements"),
   (0x25A0, 0x2600, "Geometric Shapes"),
   (0x2600, 0x2700, "Miscellaneous Symbols"),
   (0x2700, 0x27C0, "Dingbats"),
   (0x27C0, 0x27F0, "Misc Mathematical Symbols-A"),
   (0x27F0, 0x2800, "Supplemental Arrows-A"),
   (0x2900, 0x2980, "Supplemental Arrows-B"),
   (0x2980, 0x2A00, "Misc Mathematical Symbols-B"),
   (0x2A00, 0x2B00, "Supplemental Math Operators"),
   (0x2B00, 0x2C00, "Misc Symbols and Arrows"),
   (0xFB00, 0xFB50, "Alphabetic Presentation Forms"),
   (0xFE00, 0xFE10, "Variation Selectors"),
   (0xFE10, 0xFE20, "Vertical Forms"),
   (0xFE20, 0xFE30, "Combining Half Marks"),
   (0xFF00, 0xFFF0, "Halfwidth and Fullwidth Forms"),
   (0x10140, 0x10190, "Ancient Greek Numbers"),
   (0x10190, 0x101D0, "Ancient Symbols"),
   (0x1D100, 0x1D200, "Musical Symbols"),
   (0x1D200, 0x1D250, "Ancient Greek Musical Notation"),
   (0x1D400, 0x1D800, "Mathematical Alphanumeric Symbols"),
   (0x1EE00, 0x1EF00, "Arabic Mathematical Alphabetic Symbols"),
   (0x1F300, 0x1F600, "Misc Symbols and Pictographs"),
   (0x1F600, 0x1F650, "Emoticons"),
   (0x1F650, 0x1F680, "Ornamental Dingbats"),
   (0x1F680, 0x1F700, "Transport and Map Symbols"),
   (0x1F780, 0x1F800, "Geometric Shapes Extended"),
   (0x1F800, 0x1F900, "Supplemental Arrows-C"),
   (0x1F900, 0x1FA00, "Supplemental Symbols and Pictographs")]

/-- The `for block_range, block_name in UNICODE_BLOCKS.items()` loop of
`get_unicode_block`: first interval containing the code point wins. -/
def lookupBlock (cp : Nat) : List (Nat × Nat × String) → String
  | [] => "Unknown Block"
  | (lo, hi, nm) :: rest => if lo ≤ cp && cp < hi then nm else lookupBlock cp rest

/-- `get_unicode_block` of `glyph_catcher/processor.py`. -/
def getUnicodeBlock (cp : Nat) : String := lookupBlock cp UNICODE_BLOCKS

/-!
## Data model
-/

/-- One entry of the glyph-catcher primary character table: the dict
`{'name': …, 'category': …, 'char_obj': …, 'block': …}` built by
`parse_unicode_data`.  `charObj` is the code point of the one-character
string `chr(int(cp, 16))`. -/
structure GcCharInfo where
  name : String
  category : String
  charObj : Nat
  block : String
deriving DecidableEq, Inhabited

/-- One entry of the unifill-datafetch primary table (`UnicodeCharInfo`):
no block field. -/
structure UdCharInfo where
  name : String
  category : String
  charObj : Nat
deriving DecidableEq, Inhabited

/-- One `annotation` element of a CLDR XML document: whether it carries a
`type` attribute, its optional `cp` attribute value (a string of
characters), and its text content (`""` models both an empty text and
Python `None`, which are equally falsy under `if annotation.text`). -/
structure CldrElem where
  hasType : Bool
  cp? : Option String
  text : String
deriving DecidableEq, Inhabited

/-!
## Source parsers (shared line-level cores)
-/

/-- Per-line body of `parse_unicode_data` (both packages): split the
stripped line on `;`, require at least three fields, skip
`<…, First>` / `<…, Last>` range markers, decode the hex code point and
`chr` it (skipping on failure).  Returns the key/record inserted, if any. -/
def unicodeDataLine (line : String) : Option (String × String × String × Nat) :=
  match pySplitOn (pyStrip line) ';' with
  | cp :: name :: category :: _ =>
    if pyStartsWith name "<" && pyEndsWith name ", First>" then none
    else if pyStartsWith name "<" && pyEndsWith name ", Last>" then none
    else
      match hexToNat? cp with
      | some n => if n ≤ 0x10FFFF then some (cp, name, category, n) else none
      | none => none
  | _ => none

/-- `parse_unicode_data` of `glyph_catcher/processor.py` over the lines of
the file; `none` (missing file) yields the empty dict. -/
def gcParseUnicodeData (file? : Option (List String)) : List (String × GcCharInfo) :=
  match file? with
  | none => []
  | some lines =>
    lines.foldl (fun m line =>
      match unicodeDataLine line with
      | some (cp, name, category, n) =>
        dictInsert m cp ⟨name, category, n, getUnicodeBlock n⟩
      | none => m) []

/-- `parse_unicode_data` of `unifill_datafetch/processor.py`: same record
shape minus the block, and a missing file yields `None`. -/
def udParseUnicodeData (file? : Option (List String)) :
    Option (List (String × UdCharInfo)) :=
  file?.map (fun lines =>
    lines.foldl (fun m line =>
      match unicodeDataLine line with
      | some (cp, name, category, n) => dictInsert m cp ⟨name, category, n⟩
      | none => m) [])

/-- The line loop of `parse_name_aliases` (both packages): skip blank and
`#` lines; a line with at least two `;`-fields appends its second field
verbatim to its code point's list. -/
def nameAliasesFromLines (lines : List String) : List (String × List String) :=
  lines.foldl (fun m line =>
    let s := pyStrip line
    if s = "" || pyStartsWith s "#" then m
    else
      match pySplitOn s ';' with
      | cp :: aliasText :: _ => extendAt m cp [aliasText]
      | _ => m) []

/-- `parse_name_aliases` of `glyph_catcher/processor.py`: missing file
gives an empty dict. -/
def gcParseNameAliases (file? : Option (List String)) : List (String × List String) :=
  (file?.map nameAliasesFromLines).getD []

/-- `parse_name_aliases` of `unifill_datafetch/processor.py`: missing file
gives `None`. -/
def udParseNameAliases (file? : Option (List String)) :
    Option (List (String × List String)) :=
  file?.map nameAliasesFromLines

/-!
## Informative alias parser (`parse_names_list`)
-/

/-- One iteration of the `parse_names_list` line loop (both packages).
State is `current_code_point` (`none` for Python `None`; Python also
treats a stored empty string as inactive, since it tests truthiness).
Returns the new state and the `(code_point_hex, alias)` appended, if any. -/
def namesListStep (current : Option String) (line : String) :
    Option String × Option (String × String) :=
  let s := pyStrip line
  if s = "" || pyStartsWith s "@" || pyStartsWith s ";" then (current, none)
  else if !(pyStartsWith line "\t") then
    match (pySplitOnce s '\t').2 with
    | some _ => (some (pyStrip (pySplitOnce s '\t').1), none)
    | none => (none, none)
  else
    match current with
    | some c =>
      if c != "" && pyContains s '=' && pyStartsWith (pyLStrip s) "=" then
        (current, some (pyUpper c, pyStrip (pyDropOne (pyLStrip s))))
      else if c != "" && pyContains s '*' && pyStartsWith (pyLStrip s) "*" then
        let note := pyStrip (pyDropOne (pyLStrip s))
        if note.length < 50 && !(pyContains note '(') && !(pyContains note ')') then
          (current, some (pyUpper c, note))
        else (current, none)
      else (current, none)
    | none => (current, none)

/-- Threading `namesListStep` through the accumulated
`defaultdict(list)` of informative aliases. -/
def namesListAccum (st : Option String × List (String × List String))
    (line : String) : Option String × List (String × List String) :=
  let step := namesListStep st.1 line
  match step.2 with
  | some (k, a) => (step.1, extendAt st.2 k [a])
  | none => (step.1, st.2)

/-- The full `parse_names_list` line loop. -/
def namesListFromLines (lines : List String) : List (String × List String) :=
  (lines.foldl namesListAccum (none, [])).2

/-- `parse_names_list` of `glyph_catcher/processor.py`: missing file gives
an empty dict. -/
def gcParseNamesList (file? : Option (List String)) : List (String × List String) :=
  (file?.map namesListFromLines).getD []

/-- `parse_names_list` of `unifill_datafetch/processor.py`: missing file
gives `None`. -/
def udParseNamesList (file? : Option (List String)) :
    Option (List (String × List String)) :=
  file?.map namesListFromLines

/-!
## Localized annotation parser (`parse_cldr_annotations`)
-/

/-- The `for annotation in root.findall(".//annotation")` loop (both
packages).  An element with a `type` attribute is skipped; the code point
key is `format(ord(cp[0]), 'X')`; an element whose `cp` value is the
empty string makes Python raise `IndexError` inside the loop, which the
surrounding `except` turns into an overall failure (`none` here). -/
def cldrFold (acc : List (String × List String)) :
    List CldrElem → Option (List (String × List String))
  | [] => some acc
  | e :: rest =>
    if e.hasType then cldrFold acc rest
    else
      match e.cp? with
      | none => cldrFold acc rest
      | some cpv =>
        match cpv.data with
        | [] => none
        | c :: _ =>
          if e.text = "" then cldrFold acc rest
          else
            cldrFold
              (extendAt acc (natToHexUpper c.toNat)
                ((pySplitOn e.text '|').map pyStrip)) rest

/-- `parse_cldr_annotations` of `glyph_catcher/processor.py`: both a
missing file and an in-loop exception give an empty dict. -/
def gcParseCldr (file? : Option (List CldrElem)) : List (String × List String) :=
  match file? with
  | none => []
  | some es => (cldrFold [] es).getD []

/-- `parse_cldr_annotations` of `unifill_datafetch/processor.py`: both a
missing file and an in-loop exception give `None`. -/
def udParseCldr (file? : Option (List CldrElem)) :
    Option (List (String × List String)) :=
  file?.bind (cldrFold [])

/-!
## Alias merge engine and pipelines
-/

/-- `merge_aliases` of `unifill_datafetch/processor.py`: formal, then
informative (keys upper-cased), then CLDR aliases are appended verbatim;
a falsy `cldr_annotations` (Python `None` or empty dict) contributes
nothing.  No normalization and no deduplication is performed. -/
def udMergeAliases (formal informative : List (String × List String))
    (cldr : Option (List (String × List String))) : List (String × List String) :=
  let m1 := formal.foldl (fun acc kv => extendAt acc kv.1 kv.2) []
  let m2 := informative.foldl (fun acc kv => extendAt acc (pyUpper kv.1) kv.2) m1
  match cldr with
  | some cs => if cs = [] then m2 else cs.foldl (fun acc kv => extendAt acc kv.1 kv.2) m2
  | none => m2

/-- `process_data_files` of `glyph_catcher/processor.py`.  The CLDR
argument is `none` when the `cldr_annotations` key is absent or the file
is missing (both contribute an empty dict).  The alias merge is the
in-line triple of `extend` loops of lines 385–398. -/
def gcProcessDataFiles (udF faF nlF : Option (List String))
    (cldrF : Option (List CldrElem)) :
    List (String × GcCharInfo) × List (String × List String) :=
  let unicodeData := gcParseUnicodeData udF
  let formal := gcParseNameAliases faF
  let informative := gcParseNamesList nlF
  let cldr := gcParseCldr cldrF
  let a1 := formal.foldl (fun acc kv => extendAt acc kv.1 kv.2) []
  let a2 := informative.foldl (fun acc kv => extendAt acc (pyUpper kv.1) kv.2) a1
  let a3 := cldr.foldl (fun acc kv => extendAt acc kv.1 kv.2) a2
  (unicodeData, a3)

/-- `process_data_files` of `unifill_datafetch/processor.py`: a falsy
(`None` or empty) primary table, formal alias dict or informative alias
dict each abort with `(None, None)`; the CLDR source is parsed only when
its key is present, and only ever downgrades to a warning. -/
def udProcessDataFiles (udF faF nlF : Option (List String))
    (cldrKeyPresent : Bool) (cldrF : Option (List CldrElem)) :
    Option (List (String × UdCharInfo)) × Option (List (String × List String)) :=
  match udParseUnicodeData udF with
  | none => (none, none)
  | some ud =>
    if ud = [] then (none, none)
    else
      match udParseNameAliases faF with
      | none => (none, none)
      | some fa =>
        if fa = [] then (none, none)
        else
          match udParseNamesList nlF with
          | none => (none, none)
          | some nl =>
            if nl = [] then (none, none)
            else
              let cldr := if cldrKeyPresent then udParseCldr cldrF else none
              (some ud, some (udMergeAliases fa nl cldr))

/-!
## Dataset/block filter
-/

/-- `filter_by_unicode_blocks` of `glyph_catcher/processor.py`.  A falsy
`blocks` (Python `None` or the empty list) and a list containing the
sentinel `"all"` are identity; otherwise characters are kept when their
block is listed, and the alias dict is restricted to the kept keys in
character order. -/
def filterByUnicodeBlocks (unicodeData : List (String × GcCharInfo))
    (aliasesData : List (String × List String)) (blocks : Option (List String)) :
    List (String × GcCharInfo) × List (String × List String) :=
  match blocks with
  | none => (unicodeData, aliasesData)
  | some bs =>
    if bs = [] then (unicodeData, aliasesData)
    else if bs.contains "all" then (unicodeData, aliasesData)
    else
      let fud := unicodeData.filter (fun kv => bs.contains kv.2.block)
      let fad := fud.filterMap (fun kv => (lookup? aliasesData kv.1).map (kv.1, ·))
      (fud, fad)

/-!
## Master snapshot (save/load)

The snapshot is a JSON document; `Json` models the JSON values the
snapshot code produces and consumes.  The one-character `char_obj`
string is carried as its code point (`num`), per the conventions above.
`save_master_data_file` returning `none` models both the "no data"
early return and a write failure; `load_master_data_file` receiving
`none` models a missing or undecodable file.
-/

inductive Json where
  | str : String → Json
  | num : Nat → Json
  | arr : List Json → Json
  | obj : List (String × Json) → Json

/-- The per-character dict written by `save_master_data_file` (its
`'block' if 'block' in char_info else "Unknown Block"` default never
fires here because every parsed record carries a block). -/
def encodeCharInfo (ci : GcCharInfo) : Json :=
  .obj [("name", .str ci.name), ("category", .str ci.category),
        ("char_obj", .num ci.charObj), ("block", .str ci.block)]

/-- `save_master_data_file` of `glyph_catcher/processor.py`: refuses empty
inputs, otherwise serializes the two mappings under the keys
`unicode_data` and `aliases_data`. -/
def saveMasterDataFile (unicodeData : List (String × GcCharInfo))
    (aliasesData : List (String × List String)) : Option Json :=
  if unicodeData = [] ∨ aliasesData = [] then none
  else
    some (.obj
      [("unicode_data", .obj (unicodeData.map fun kv => (kv.1, encodeCharInfo kv.2))),
       ("aliases_data", .obj (aliasesData.map fun kv => (kv.1, .arr (kv.2.map .str))))])

/-- `dict.get` on a JSON object (first occurrence of the key). -/
def objGet? (fields : List (String × Json)) (key : String) : Option Json :=
  match fields with
  | [] => none
  | (k, v) :: rest => if k = key then some v else objGet? rest key

/-- Read one per-character dict back into the data model. -/
def decodeCharInfo : Json → Option GcCharInfo
  | .obj [("name", .str n), ("category", .str c), ("char_obj", .num ch), ("block", .str b)] =>
    some ⟨n, c, ch, b⟩
  | _ => none

/-- `Option`-monad `mapM` over a list, written out structurally. -/
def optionMapM {α β : Type} (f : α → Option β) : List α → Option (List β)
  | [] => some []
  | a :: as =>
    match f a, optionMapM f as with
    | some b, some bs => some (b :: bs)
    | _, _ => none

/-- Read one JSON string back. -/
def decodeStr? : Json → Option String
  | .str s => some s
  | _ => none

/-- Read one alias list back. -/
def decodeStrList : Json → Option (List String)
  | .arr js => optionMapM decodeStr? js
  | _ => none

/-- `load_master_data_file` of `glyph_catcher/processor.py`: a missing or
undecodable file gives `(None, None)`; otherwise the two top-level keys
are read (defaulting to empty dicts) and returned, interpreted back into
the data model. -/
def loadMasterDataFile (file? : Option Json) :
    Option (List (String × GcCharInfo) × List (String × List String)) :=
  match file? with
  | some (.obj fields) =>
    match (objGet? fields "unicode_data").getD (.obj []),
          (objGet? fields "aliases_data").getD (.obj []) with
    | .obj udf, .obj adf =>
      match optionMapM (fun kv => (decodeCharInfo kv.2).map ((kv.1, ·))) udf,
            optionMapM (fun kv => (decodeStrList kv.2).map ((kv.1, ·))) adf with
      | some ud, some ad => some (ud, ad)
      | _, _ => none
    | _, _ => none
  | _ => none

/-!
## Lemmas about the string model
-/

theorem dropWhile_head_false {α : Type} (p : α → Bool) :
    ∀ (l : List α) (a : α) (t : List α), l.dropWhile p = a :: t → p a = false := by
  intro l
  induction l with
  | nil => intro a t h; simp [List.dropWhile] at h
  | cons c cs ih =>
    intro a t h
    rw [List.dropWhile_cons] at h
    by_cases hc : p c = true
    · rw [if_pos hc] at h; exact ih a t h
    · rw [if_neg hc] at h
      cases h
      exact Bool.eq_false_iff.mpr hc

theorem dropWhile_of_head_false {α : Type} (p : α → Bool) (l : List α)
    (h : ∀ a t, l = a :: t → p a = false) : l.dropWhile p = l := by
  cases l with
  | nil => rfl
  | cons a t =>
    rw [List.dropWhile_cons, h a t rfl]
    simp

theorem dropWhile_suffix_of {α : Type} (p : α → Bool) :
    ∀ l : List α, ∃ u, u ++ l.dropWhile p = l := by
  intro l
  induction l with
  | nil => exact ⟨[], rfl⟩
  | cons a t ih =>
    rw [List.dropWhile_cons]
    by_cases ha : p a = true
    · rw [if_pos ha]
      obtain ⟨u, hu⟩ := ih
      exact ⟨a :: u, by rw [List.cons_append, hu]⟩
    · rw [if_neg ha]
      exact ⟨[], rfl⟩

/-- The head of a stripped character list is not whitespace. -/
theorem pyStripList_head (l : List Char) (a : Char) (t : List Char)
    (h : pyStripList l = a :: t) : isPySpace a = false := by
  unfold pyStripList at h
  obtain ⟨u, hu⟩ :=
    dropWhile_suffix_of isPySpace (l.dropWhile isPySpace).reverse
  have hpref :
      ((l.dropWhile isPySpace).reverse.dropWhile isPySpace).reverse ++ u.reverse =
        l.dropWhile isPySpace := by
    rw [← List.reverse_append, hu, List.reverse_reverse]
  rw [h] at hpref
  exact dropWhile_head_false isPySpace l a (t ++ u.reverse)
    (by rw [← hpref]; simp)

/-- The last element of a stripped character list is not whitespace. -/
theorem pyStripList_rev_head (l : List Char) (a : Char) (t : List Char)
    (h : (pyStripList l).reverse = a :: t) : isPySpace a = false := by
  unfold pyStripList at h
  rw [List.reverse_reverse] at h
  exact dropWhile_head_false isPySpace (l.dropWhile isPySpace).reverse a t h

/-- Stripping a both-ends-clean list is the identity. -/
theorem pyStripList_fix (r : List Char)
    (h1 : ∀ a t, r = a :: t → isPySpace a = false)
    (h2 : ∀ a t, r.reverse = a :: t → isPySpace a = false) :
    pyStripList r = r := by
  unfold pyStripList
  rw [dropWhile_of_head_false isPySpace r h1,
      dropWhile_of_head_false isPySpace r.reverse h2, List.reverse_reverse]

theorem pyStripList_idem (l : List Char) :
    pyStripList (pyStripList l) = pyStripList l :=
  pyStripList_fix (pyStripList l) (pyStripList_head l) (pyStripList_rev_head l)

/-- Python `strip` is idempotent. -/
theorem pyStrip_idem (s : String) : pyStrip (pyStrip s) = pyStrip s :=
  congrArg String.mk (pyStripList_idem s.data)

/-- `lstrip` after `strip` is the identity. -/
theorem pyLStrip_pyStrip (s : String) : pyLStrip (pyStrip s) = pyStrip s :=
  congrArg String.mk
    (dropWhile_of_head_false isPySpace (pyStripList s.data) (pyStripList_head s.data))

/-- `startswith` of a one-character pattern against a known head. -/
theorem pyStartsWith_char {s p : String} {c d : Char} {t : List Char}
    (hs : s.data = c :: t) (hp : p.data = [d]) :
    pyStartsWith s p = (d == c) := by
  unfold pyStartsWith
  rw [hs, hp]
  simp [List.isPrefixOf]

/-- A string starting (in model terms) with a one-character pattern has
that character as head. -/
theorem pyStartsWith_char_head {s p : String} {d : Char}
    (hp : p.data = [d]) (h : pyStartsWith s p = true) :
    ∃ t, s.data = d :: t := by
  unfold pyStartsWith at h
  rw [hp] at h
  cases hs : s.data with
  | nil => rw [hs] at h; simp [List.isPrefixOf] at h
  | cons b bs =>
    rw [hs] at h
    simp [List.isPrefixOf] at h
    exact ⟨bs, by rw [h]⟩

theorem pyContains_of_head {s : String} {c : Char} {t : List Char}
    (hs : s.data = c :: t) : pyContains s c = true := by
  unfold pyContains
  rw [hs]
  simp [List.contains]

/-!
## Claim theorems
-/

/-- C1 (failing-input evaluation): `merge_aliases` on the very alias
dicts used by `glyph-catcher/tests/test_processor.py`
(`test_alias_deduplication`) keeps every source string verbatim — no
whitespace trimming, no lower-casing, no deduplication — although
`"First Letter"`, `"FIRST letter"`, `"first LETTER"` all share the
normalized dedup key; the tests demand the single normalized list
`["first letter", "letter a"]`. -/
theorem mergeAliasesKeepsCaseDuplicates :
    udMergeAliases [("0041", ["First Letter", "FIRST letter"])]
        [("0041", ["first LETTER", "Letter A"])]
        (some [("0041", ["First Letter", "letter a"])]) =
      [("0041", ["First Letter", "FIRST letter", "first LETTER", "Letter A",
                 "First Letter", "letter a"])] ∧
    pyStrip (pyLower "First Letter") = pyStrip (pyLower "FIRST letter") ∧
    pyStrip (pyLower "First Letter") = pyStrip (pyLower "first LETTER") ∧
    udMergeAliases [("0041", ["First Letter", "FIRST letter"])]
        [("0041", ["first LETTER", "Letter A"])]
        (some [("0041", ["First Letter", "letter a"])]) ≠
      [("0041", ["first letter", "letter a"])] := by
  refine ⟨by decide, by decide, by decide, by decide⟩

/-- C2 (counterexample): in the unifill-datafetch pipeline a missing
formal-alias file is fatal: `parse_name_aliases` returns `None`, not an
empty mapping, and `process_data_files` returns `(None, None)` even
though the primary table and the informative aliases parsed fine. -/
theorem udPipelineAbortsOnMissingFormalAliases :
    udParseNameAliases none = none ∧
    udProcessDataFiles (some ["0041;LATIN CAPITAL LETTER A;Lu;0;L;;;;;N;;;;0061;"])
        none
        (some ["0041\tLATIN CAPITAL LETTER A",
               "\t= first letter of the Latin alphabet"])
        false none = (none, none) := by
  refine ⟨rfl, by decide⟩

/-- C2 (amended): in the glyph-catcher pipeline each of the three alias
parsers yields an empty mapping on a missing file, and
`process_data_files` on a missing alias source behaves exactly as on a
present-but-empty one: the pipeline continues with the remaining
sources. -/
theorem gcMissingAliasSourceContributesNothing :
    gcParseNameAliases none = [] ∧ gcParseNamesList none = [] ∧
    gcParseCldr none = [] ∧
    (∀ udF nlF cldrF, gcProcessDataFiles udF none nlF cldrF =
      gcProcessDataFiles udF (some []) nlF cldrF) ∧
    (∀ udF faF cldrF, gcProcessDataFiles udF faF none cldrF =
      gcProcessDataFiles udF faF (some []) cldrF) ∧
    (∀ udF faF nlF, gcProcessDataFiles udF faF nlF none =
      gcProcessDataFiles udF faF nlF (some [])) := by
  refine ⟨rfl, rfl, rfl, ?_, ?_, ?_⟩ <;> intros <;> rfl

/-- C3 (counterexample): the formal alias parser admits its second field
verbatim, so the line `0041; ;correction;` admits the whitespace-only
alias `" "`, which then reaches the merge set. -/
theorem formalAliasAdmitsWhitespaceOnly :
    gcParseNameAliases (some ["0041; ;correction;"]) = [("0041", [" "])] ∧
    udMergeAliases (gcParseNameAliases (some ["0041; ;correction;"])) [] none =
      [("0041", [" "])] ∧
    (" " : String) ≠ "" ∧ pyStrip " " = "" := by
  refine ⟨by decide, by decide, by decide, by decide⟩

/-- C4 (counterexample): a CLDR annotation element with text
`"letter a|"` and no `type` attribute contributes the empty segment too:
the parser appends every trimmed segment, not just the non-trivial
ones. -/
theorem cldrAppendsEmptySegment :
    gcParseCldr (some [⟨false, some "A", "letter a|"⟩]) =
      [("41", ["letter a", ""])] ∧
    gcParseCldr (some [⟨false, some "A", "letter a|"⟩]) ≠
      [("41", ["letter a"])] := by
  refine ⟨by decide, by decide⟩

/-- C6: the dataset/block filter is the identity for `blocks = None`, for
an empty block list, and for any block list containing the sentinel
`"all"`. -/
theorem filterIdentityCases (ud : List (String × GcCharInfo))
    (ad : List (String × List String)) :
    filterByUnicodeBlocks ud ad none = (ud, ad) ∧
    filterByUnicodeBlocks ud ad (some []) = (ud, ad) ∧
    ∀ bs : List String, bs.contains "all" = true →
      filterByUnicodeBlocks ud ad (some bs) = (ud, ad) := by
  refine ⟨rfl, rfl, ?_⟩
  intro bs h
  by_cases hb : bs = []
  · simp [filterByUnicodeBlocks, hb]
  · have h2 : "all" ∈ bs := by simpa using h
    simp [filterByUnicodeBlocks, hb, h2]

/-- Witness for C6 at a concrete block list containing `"all"`. -/
theorem filterIdentityCasesWitness :
    (["Basic Latin", "all"] : List String).contains "all" = true ∧
    filterByUnicodeBlocks
      [("0041", ⟨"LATIN CAPITAL LETTER A", "Lu", 65, "Basic Latin"⟩)]
      [("0041", ["latin letter a"])] (some ["Basic Latin", "all"]) =
      ([("0041", ⟨"LATIN CAPITAL LETTER A", "Lu", 65, "Basic Latin"⟩)],
       [("0041", ["latin letter a"])]) :=
  ⟨by decide,
   (filterIdentityCases _ _).2.2 ["Basic Latin", "all"] (by decide)⟩

/-- C10: `save_master_data_file` with an empty characters dict or an
empty aliases dict writes nothing and returns `None`. -/
theorem saveMasterEmptyIsNone (ud : List (String × GcCharInfo))
    (ad : List (String × List String)) (h : ud = [] ∨ ad = []) :
    saveMasterDataFile ud ad = none := by
  unfold saveMasterDataFile
  rw [if_pos h]

/-- Witness for C10: a non-empty characters dict with an empty aliases
dict is refused. -/
theorem saveMasterEmptyIsNoneWitness :
    (([("0041", (⟨"LATIN CAPITAL LETTER A", "Lu", 65, "Basic Latin"⟩ : GcCharInfo))] :
        List (String × GcCharInfo)) = [] ∨ ([] : List (String × List String)) = []) ∧
    saveMasterDataFile
      [("0041", ⟨"LATIN CAPITAL LETTER A", "Lu", 65, "Basic Latin"⟩)] [] = none :=
  ⟨Or.inr rfl, saveMasterEmptyIsNone _ _ (Or.inr rfl)⟩

/-!
## Round trip of the master snapshot
-/

theorem decodeEncodeCharInfo (ci : GcCharInfo) :
    decodeCharInfo (encodeCharInfo ci) = some ci := by
  cases ci
  rfl

theorem optionMapM_section {α β : Type} (f : α → Option β) (g : β → α)
    (hfg : ∀ b, f (g b) = some b) :
    ∀ l : List β, optionMapM f (l.map g) = some l := by
  intro l
  induction l with
  | nil => rfl
  | cons b rest ih =>
    simp only [List.map_cons, optionMapM]
    rw [hfg, ih]

theorem loadMasterOfPair (j1 j2 : Json) :
    loadMasterDataFile (some (.obj [("unicode_data", j1), ("aliases_data", j2)])) =
      (match j1, j2 with
       | .obj udf, .obj adf =>
         (match optionMapM (fun kv => (decodeCharInfo kv.2).map ((kv.1, ·))) udf,
                optionMapM (fun kv => (decodeStrList kv.2).map ((kv.1, ·))) adf with
          | some u, some a => some (u, a)
          | _, _ => none)
       | _, _ => none) := by
  have e1 : objGet? [("unicode_data", j1), ("aliases_data", j2)] "unicode_data" =
      some j1 := by
    simp [objGet?]
  have e2 : objGet? [("unicode_data", j1), ("aliases_data", j2)] "aliases_data" =
      some j2 := by
    simp [objGet?]
  simp only [loadMasterDataFile, e1, e2, Option.getD_some]

/-- C5: saving a non-empty characters dict and a non-empty aliases dict
and loading the resulting snapshot reproduces both dicts exactly, every
field included. -/
theorem masterRoundTrip (ud : List (String × GcCharInfo))
    (ad : List (String × List String)) (h1 : ud ≠ []) (h2 : ad ≠ []) :
    loadMasterDataFile (saveMasterDataFile ud ad) = some (ud, ad) := by
  have hor : ¬(ud = [] ∨ ad = []) := by
    rintro (h | h)
    · exact h1 h
    · exact h2 h
  unfold saveMasterDataFile
  rw [if_neg hor, loadMasterOfPair]
  have hA : optionMapM (fun kv => Option.map (fun x => (kv.1, x)) (decodeCharInfo kv.2))
      (List.map (fun kv => (kv.1, encodeCharInfo kv.2)) ud) = some ud :=
    optionMapM_section _ _ (fun kv => by rw [decodeEncodeCharInfo]; rfl) ud
  have hB : optionMapM (fun kv => Option.map (fun x => (kv.1, x)) (decodeStrList kv.2))
      (List.map (fun kv => (kv.1, Json.arr (List.map Json.str kv.2))) ad) = some ad :=
    optionMapM_section _ _ (fun kv => by
      show Option.map (fun x => (kv.1, x))
        (optionMapM decodeStr? (List.map Json.str kv.2)) = some kv
      rw [optionMapM_section decodeStr? Json.str (fun _ => rfl) kv.2]
      rfl) ad
  simp [hA, hB]

/-- Witness for C5 at concrete one-entry dicts. -/
theorem masterRoundTripWitness :
    ([("0041", (⟨"LATIN CAPITAL LETTER A", "Lu", 65, "Basic Latin"⟩ : GcCharInfo))] :
       List (String × GcCharInfo)) ≠ [] ∧
    ([("0041", ["latin letter a", "la"])] : List (String × List String)) ≠ [] ∧
    loadMasterDataFile
      (saveMasterDataFile
        [("0041", ⟨"LATIN CAPITAL LETTER A", "Lu", 65, "Basic Latin"⟩)]
        [("0041", ["latin letter a", "la"])]) =
      some ([("0041", ⟨"LATIN CAPITAL LETTER A", "Lu", 65, "Basic Latin"⟩)],
            [("0041", ["latin letter a", "la"])]) :=
  ⟨by decide, by decide,
   masterRoundTrip _ _ (by decide) (by decide)⟩

/-!
## Block resolution
-/

theorem lookupBlock_eq_find (cp : Nat) :
    ∀ l : List (Nat × Nat × String),
      lookupBlock cp l =
        ((l.find? (fun b => b.1 ≤ cp && cp < b.2.1)).map (fun b => b.2.2)).getD
          "Unknown Block" := by
  intro l
  induction l with
  | nil => rfl
  | cons b rest ih =>
    obtain ⟨lo, hi, nm⟩ := b
    rw [lookupBlock]
    by_cases hc : (lo ≤ cp && cp < hi) = true
    · rw [if_pos hc]
      simp only [List.find?_cons, hc]
      rfl
    · have hc2 : (decide (lo ≤ cp) && decide (cp < hi)) = false := by
        simpa using hc
      rw [if_neg hc]
      simp only [List.find?_cons, hc2, ih]

theorem lookupBlock_unknown_iff (cp : Nat) :
    ∀ l : List (Nat × Nat × String),
      (∀ b ∈ l, b.2.2 ≠ "Unknown Block") →
      (lookupBlock cp l = "Unknown Block" ↔
        ∀ b ∈ l, ¬(b.1 ≤ cp ∧ cp < b.2.1)) := by
  intro l
  induction l with
  | nil => intro _; simp [lookupBlock]
  | cons b rest ih =>
    intro hnames
    obtain ⟨lo, hi, nm⟩ := b
    rw [lookupBlock]
    by_cases hc : (lo ≤ cp && cp < hi) = true
    · rw [if_pos hc]
      constructor
      · intro hnm
        exact absurd hnm (hnames (lo, hi, nm) (List.mem_cons_self _ _))
      · intro hall
        exact absurd (by simpa using hc) (hall (lo, hi, nm) (List.mem_cons_self _ _))
    · rw [if_neg hc]
      rw [ih (fun x hx => hnames x (List.mem_cons_of_mem _ hx))]
      constructor
      · intro hall x hx
        rcases List.mem_cons.mp hx with hx | hx
        · subst hx
          simpa using hc
        · exact hall x hx
      · intro hall x hx
        exact hall x (List.mem_cons_of_mem _ hx)

/-- C8: block resolution is total on the 21-bit code-point range and
returns the name of the first static interval whose half-open range
contains the code point, with the sentinel `"Unknown Block"` exactly
when no interval does. -/
theorem blockResolutionSpec (cp : Nat) (hcp : cp < 2 ^ 21) :
    getUnicodeBlock cp =
      ((UNICODE_BLOCKS.find? (fun b => b.1 ≤ cp && cp < b.2.1)).map
        (fun b => b.2.2)).getD "Unknown Block" ∧
    (getUnicodeBlock cp = "Unknown Block" ↔
      ∀ b ∈ UNICODE_BLOCKS, ¬(b.1 ≤ cp ∧ cp < b.2.1)) := by
  refine ⟨lookupBlock_eq_find cp UNICODE_BLOCKS, ?_⟩
  exact lookupBlock_unknown_iff cp UNICODE_BLOCKS (by decide)

/-- Witness for C8 at code point 65 (`LATIN CAPITAL LETTER A`). -/
theorem blockResolutionSpecWitness :
    65 < 2 ^ 21 ∧
    (getUnicodeBlock 65 =
      ((UNICODE_BLOCKS.find? (fun b => b.1 ≤ 65 && 65 < b.2.1)).map
        (fun b => b.2.2)).getD "Unknown Block" ∧
     (getUnicodeBlock 65 = "Unknown Block" ↔
       ∀ b ∈ UNICODE_BLOCKS, ¬(b.1 ≤ 65 ∧ 65 < b.2.1))) ∧
    getUnicodeBlock 65 = "Basic Latin" :=
  ⟨by decide, blockResolutionSpec 65 (by decide), by decide⟩

/-!
## Primary table parsing
-/

/-- C7: a well-formed primary-table line (three or more `;`-fields, plain
hex code point within `chr` range) yields exactly one record whose
`char_obj` is the scalar decoded from the hex field — unless its name
field is a bracketed `, First>` / `, Last>` range marker, in which case
it yields no record at all. -/
theorem primaryLineParse (line cp name category : String) (rest : List String)
    (hsplit : pySplitOn (pyStrip line) ';' = cp :: name :: category :: rest) :
    (∀ n, hexToNat? cp = some n → n ≤ 0x10FFFF →
      ((pyStartsWith name "<" && pyEndsWith name ", First>") = false) →
      ((pyStartsWith name "<" && pyEndsWith name ", Last>") = false) →
      gcParseUnicodeData (some [line]) =
        [(cp, ⟨name, category, n, getUnicodeBlock n⟩)]) ∧
    (pyStartsWith name "<" = true →
      (pyEndsWith name ", First>" = true ∨ pyEndsWith name ", Last>" = true) →
      gcParseUnicodeData (some [line]) = []) := by
  constructor
  · intro n hn hb h1 h2
    have hline : unicodeDataLine line = some (cp, name, category, n) := by
      unfold unicodeDataLine
      rw [hsplit]
      simp [h1, h2, hn, hb]
    simp [gcParseUnicodeData, hline, dictInsert]
  · intro hS hE
    have hline : unicodeDataLine line = none := by
      unfold unicodeDataLine
      rw [hsplit]
      rcases hE with hF | hL
      · simp [hS, hF]
      · by_cases hF : pyEndsWith name ", First>" = true
        · simp [hS, hF]
        · simp [hS, hL, hF]
    simp [gcParseUnicodeData, hline]

/-- Witness for C7: the spec's own example line, plus a `, First>` range
marker line. -/
theorem primaryLineParseWitness :
    gcParseUnicodeData (some ["0041;LATIN CAPITAL LETTER A;Lu;0;L;;;;;N;;;;0061;"]) =
      [("0041", ⟨"LATIN CAPITAL LETTER A", "Lu", 65, getUnicodeBlock 65⟩)] ∧
    getUnicodeBlock 65 = "Basic Latin" ∧
    gcParseUnicodeData (some ["4E00;<CJK Ideograph, First>;Lo;0;L;;;;;N;;;;;"]) = [] :=
  ⟨(primaryLineParse "0041;LATIN CAPITAL LETTER A;Lu;0;L;;;;;N;;;;0061;"
      "0041" "LATIN CAPITAL LETTER A" "Lu"
      ["0", "L", "", "", "", "", "N", "", "", "", "0061", ""] (by decide)).1
    65 (by decide) (by decide) (by decide) (by decide),
   by decide,
   (primaryLineParse "4E00;<CJK Ideograph, First>;Lo;0;L;;;;;N;;;;;"
      "4E00" "<CJK Ideograph, First>" "Lo"
      ["0", "L", "", "", "", "", "N", "", "", "", "", ""] (by decide)).2
    (by decide) (Or.inl (by decide))⟩

/-!
## Trimmedness of informative and CLDR aliases
-/

/-- Every alias string stored in the dict is strip-fixed (no surrounding
whitespace; possibly empty). -/
def allTrimmed (m : List (String × List String)) : Prop :=
  ∀ kv ∈ m, ∀ x ∈ kv.2, pyStrip x = x

theorem allTrimmed_nil : allTrimmed [] := by
  intro kv hkv
  cases hkv

theorem extendAt_allTrimmed :
    ∀ (m : List (String × List String)) (k : String) (vs : List String),
      allTrimmed m → (∀ x ∈ vs, pyStrip x = x) → allTrimmed (extendAt m k vs) := by
  intro m
  induction m with
  | nil =>
    intro k vs _ hvs kv hkv x hx
    simp only [extendAt, List.mem_singleton] at hkv
    subst hkv
    exact hvs x hx
  | cons p rest ih =>
    obtain ⟨k', vs'⟩ := p
    intro k vs hm hvs kv hkv x hx
    have hmrest : allTrimmed rest := fun q hq y hy =>
      hm q (List.mem_cons_of_mem _ hq) y hy
    have hmhead : ∀ y ∈ vs', pyStrip y = y := fun y hy =>
      hm (k', vs') (List.mem_cons_self _ _) y hy
    by_cases hk : k' = k
    · rw [extendAt, if_pos hk] at hkv
      rcases List.mem_cons.mp hkv with h | h
      · subst h
        rcases List.mem_append.mp hx with h2 | h2
        · exact hmhead x h2
        · exact hvs x h2
      · exact hmrest kv h x hx
    · rw [extendAt, if_neg hk] at hkv
      rcases List.mem_cons.mp hkv with h | h
      · subst h
        exact hmhead x hx
      · exact ih k vs hmrest hvs kv h x hx

/-- Whatever one `parse_names_list` step emits is a `pyStrip` image. -/
theorem namesListStep_emission_shape (cur : Option String) (line : String) :
    (namesListStep cur line).2 = none ∨
    ∃ k raw, (namesListStep cur line).2 = some (k, pyStrip raw) := by
  unfold namesListStep
  repeat' (first | split | simp only [])
  all_goals
    first
      | exact Or.inl rfl
      | exact Or.inl trivial
      | exact Or.inr ⟨_, _, rfl⟩

/-- Any alias emitted by one `parse_names_list` step is strip-fixed. -/
theorem namesListStep_trimmed (cur : Option String) (line : String)
    (cur' : Option String) (k a : String)
    (h : namesListStep cur line = (cur', some (k, a))) : pyStrip a = a := by
  have h2 : (namesListStep cur line).2 = some (k, a) := by rw [h]
  rcases namesListStep_emission_shape cur line with hs | ⟨k2, raw, hs⟩
  · rw [hs] at h2
    cases h2
  · rw [hs] at h2
    simp only [Option.some.injEq, Prod.mk.injEq] at h2
    rw [← h2.2, pyStrip_idem]

theorem namesListAccum_allTrimmed :
    ∀ (lines : List String) (st : Option String × List (String × List String)),
      allTrimmed st.2 → allTrimmed ((lines.foldl namesListAccum st).2) := by
  intro lines
  induction lines with
  | nil => intro st h; exact h
  | cons line rest ih =>
    intro st h
    rw [List.foldl_cons]
    apply ih
    rcases hstep : (namesListStep st.1 line).2 with - | ⟨k, a⟩
    · simpa [namesListAccum, hstep] using h
    · have heq : namesListStep st.1 line = ((namesListStep st.1 line).1, some (k, a)) := by
        rw [← hstep]
      have ha : pyStrip a = a :=
        namesListStep_trimmed st.1 line (namesListStep st.1 line).1 k a heq
      have : (rest.foldl namesListAccum (namesListAccum st line)).2 =
          (rest.foldl namesListAccum
            ((namesListStep st.1 line).1, extendAt st.2 k [a])).2 := by
        rw [namesListAccum, hstep]
      simp only [namesListAccum, hstep]
      exact extendAt_allTrimmed st.2 k [a] h
        (fun x hx => by
          rcases List.mem_singleton.mp hx with h2
          rw [h2]
          exact ha)

theorem cldrFold_allTrimmed :
    ∀ (es : List CldrElem) (acc : List (String × List String)),
      allTrimmed acc → ∀ m, cldrFold acc es = some m → allTrimmed m := by
  intro es
  induction es with
  | nil =>
    intro acc h m hm
    rw [cldrFold] at hm
    cases hm
    exact h
  | cons e rest ih =>
    intro acc h m hm
    rw [cldrFold] at hm
    split at hm
    · exact ih acc h m hm
    · split at hm
      · exact ih acc h m hm
      · split at hm
        · cases hm
        · split at hm
          · exact ih acc h m hm
          · refine ih _ ?_ m hm
            apply extendAt_allTrimmed _ _ _ h
            intro x hx
            rcases List.mem_map.mp hx with ⟨y, -, hy2⟩
            rw [← hy2, pyStrip_idem]

/-- C3 (amended): every alias admitted by the informative parser and by
the CLDR parser equals its own whitespace-trim (it carries no
surrounding whitespace, though it may be empty); the formal parser, by
contrast, admits its field verbatim (see the counterexample). -/
theorem informativeCldrAliasesTrimmed :
    (∀ f : Option (List String), allTrimmed (gcParseNamesList f)) ∧
    (∀ g : Option (List CldrElem), allTrimmed (gcParseCldr g)) := by
  constructor
  · intro f
    rcases f with - | lines
    · exact allTrimmed_nil
    · exact namesListAccum_allTrimmed lines (none, []) allTrimmed_nil
  · intro g
    rcases g with - | es
    · exact allTrimmed_nil
    · rcases hf : cldrFold [] es with - | m
      · simpa [gcParseCldr, hf] using allTrimmed_nil
      · have := cldrFold_allTrimmed es [] allTrimmed_nil m hf
        simpa [gcParseCldr, hf] using this

/-- Witness for C3's amended claim at concrete parses. -/
theorem informativeCldrAliasesTrimmedWitness :
    pyStrip "first letter" = "first letter" ∧
    pyStrip "grinning face" = "grinning face" :=
  ⟨informativeCldrAliasesTrimmed.1
      (some ["0041\tLATIN CAPITAL LETTER A", "\t=  first letter  "])
      ("0041", ["first letter"]) (by decide) "first letter" (by decide),
   informativeCldrAliasesTrimmed.2
      (some [⟨false, some "A", " grinning face |x"⟩])
      ("41", ["grinning face", "x"]) (by decide) "grinning face" (by decide)⟩

/-!
## CLDR element contribution
-/

/-- C4 (amended): an element with a `type` attribute contributes nothing;
otherwise the code point is the first character of the `cp` value and
every `|`-segment of the text, trimmed — including empty ones — is
appended in document order. -/
theorem cldrElementContribution :
    (∀ e : CldrElem, e.hasType = true → gcParseCldr (some [e]) = []) ∧
    (∀ (e : CldrElem) (s : String) (c : Char) (cs : List Char),
      e.hasType = false → e.cp? = some s → s.data = c :: cs → e.text ≠ "" →
      gcParseCldr (some [e]) =
        [(natToHexUpper c.toNat, (pySplitOn e.text '|').map pyStrip)]) := by
  constructor
  · intro e he
    simp [gcParseCldr, cldrFold, he]
  · intro e s c cs he hcp2 hdata htext
    simp [gcParseCldr, cldrFold, he, hcp2, hdata, htext, extendAt]

/-- Witness for C4's amended claim: a `type`-carrying element is dropped;
a plain element keyed by an astral `cp` contributes its trimmed
segments. -/
theorem cldrElementContributionWitness :
    gcParseCldr (some [⟨true, some "A", "capital a"⟩]) = [] ∧
    ("grinning face | smile" : String) ≠ "" ∧
    gcParseCldr (some [⟨false, some "😀", "grinning face | smile"⟩]) =
      [(natToHexUpper (Char.toNat '😀'),
        (pySplitOn "grinning face | smile" '|').map pyStrip)] ∧
    natToHexUpper (Char.toNat '😀') = "1F600" ∧
    (pySplitOn "grinning face | smile" '|').map pyStrip =
      ["grinning face", "smile"] :=
  ⟨cldrElementContribution.1 ⟨true, some "A", "capital a"⟩ rfl,
   by decide,
   cldrElementContribution.2 ⟨false, some "😀", "grinning face | smile"⟩
     "😀" '😀' [] rfl rfl (by decide) (by decide),
   by decide, by decide⟩

/-!
## The `*`-line heuristic of `parse_names_list`
-/

/-- C9: an indented line whose stripped form begins with `*`, seen while
a code point is active, appends the marker-stripped trimmed note exactly
when the note is under 50 characters and contains no parenthesis. -/
theorem starLineHeuristic (c : String) (line : String) (hc : c ≠ "")
    (hind : pyStartsWith line "\t" = true)
    (hstar : pyStartsWith (pyStrip line) "*" = true) :
    (((pyStrip (pyDropOne (pyLStrip (pyStrip line)))).length < 50 ∧
      pyContains (pyStrip (pyDropOne (pyLStrip (pyStrip line)))) '(' = false ∧
      pyContains (pyStrip (pyDropOne (pyLStrip (pyStrip line)))) ')' = false) →
      namesListStep (some c) line =
        (some c, some (pyUpper c, pyStrip (pyDropOne (pyLStrip (pyStrip line)))))) ∧
    (¬((pyStrip (pyDropOne (pyLStrip (pyStrip line)))).length < 50 ∧
      pyContains (pyStrip (pyDropOne (pyLStrip (pyStrip line)))) '(' = false ∧
      pyContains (pyStrip (pyDropOne (pyLStrip (pyStrip line)))) ')' = false) →
      namesListStep (some c) line = (some c, none)) := by
  have hlstrip : pyLStrip (pyStrip line) = pyStrip line := pyLStrip_pyStrip line
  obtain ⟨t, hd⟩ := pyStartsWith_char_head (p := "*") rfl hstar
  have hne : ¬(pyStrip line = "") := by
    intro heq
    rw [heq] at hd
    cases hd
  have hat : pyStartsWith (pyStrip line) "@" = false :=
    (pyStartsWith_char hd rfl).trans (by decide)
  have hsemi : pyStartsWith (pyStrip line) ";" = false :=
    (pyStartsWith_char hd rfl).trans (by decide)
  have heqstart : pyStartsWith (pyLStrip (pyStrip line)) "=" = false := by
    rw [hlstrip]
    exact (pyStartsWith_char hd rfl).trans (by decide)
  have hstarstart : pyStartsWith (pyLStrip (pyStrip line)) "*" = true := by
    rw [hlstrip]
    exact hstar
  have hcont : pyContains (pyStrip line) '*' = true := pyContains_of_head hd
  have htab : (!pyStartsWith line "\t") = false := by rw [hind]; rfl
  constructor
  · intro hcond
    simp [namesListStep, htab, hne, hat, hsemi, heqstart, hstarstart, hcont, hc,
      hcond.1, hcond.2.1, hcond.2.2]
  · intro hcond
    have hfalse : (decide ((pyStrip (pyDropOne (pyLStrip (pyStrip line)))).length < 50) &&
        !pyContains (pyStrip (pyDropOne (pyLStrip (pyStrip line)))) '(' &&
        !pyContains (pyStrip (pyDropOne (pyLStrip (pyStrip line)))) ')') = false := by
      by_contra hb
      rw [Bool.not_eq_false, Bool.and_eq_true, Bool.and_eq_true] at hb
      obtain ⟨⟨hb1, hb2⟩, hb3⟩ := hb
      exact hcond ⟨by simpa using hb1, by simpa using hb2, by simpa using hb3⟩
    simp [namesListStep, htab, hne, hat, hsemi, heqstart, hstarstart, hcont, hc, hfalse]

/-- Witness for C9: the spec's included and excluded example lines. -/
theorem starLineHeuristicWitness :
    namesListStep (some "0041") "\t* used for counting" =
      (some "0041", some (pyUpper "0041",
        pyStrip (pyDropOne (pyLStrip (pyStrip "\t* used for counting"))))) ∧
    pyStrip (pyDropOne (pyLStrip (pyStrip "\t* used for counting"))) =
      "used for counting" ∧
    namesListStep (some "0041") "\t* used for ... (cf. other char)" =
      (some "0041", none) :=
  ⟨(starLineHeuristic "0041" "\t* used for counting" (by decide) (by decide)
      (by decide)).1 ⟨by decide, by decide, by decide⟩,
   by decide,
   (starLineHeuristic "0041" "\t* used for ... (cf. other char)" (by decide)
      (by decide) (by decide)).2
     (by intro hcond; exact absurd hcond.2.1 (by decide))⟩
